import Mathlib

/-!
# Verification of `utimes` (src/index.js)

A shallow embedding of the single source file `src/index.js` of the
`utimes` package, together with theorems settling the specification
claims about it.

Modelling conventions:

* A JavaScript string is a `List ℕ` of Unicode code points (`JSString`).
* A JavaScript number is a rational number `ℚ` (exact for every value the
  claims touch; `NaN`/`Infinity` do not arise for the validated ranges).
* The `paths` argument is an inductive `PathsArg`: a string, an array of
  elements (each a string or some non-string value), or any other value.
* The `options` argument is an inductive `OptionsArg`: an object carrying
  the three optional time fields, the value `null` (whose JavaScript
  `typeof` is `'object'`, so it passes the guard in `getFullOptions` and
  the subsequent property access `options.btime` throws a `TypeError`),
  or any other value whose `typeof` is not `'object'`.
* Thrown `Error`s become constructors of `JsError`, one per distinct
  `throw` site / message shape in the source, classified into the spec's
  error kinds by `kindOf`.
* Filesystem and native-binding effects are recorded as a trace
  (`List FsOp`) of the calls the code issues, in order; their outcomes
  are supplied by an environment `Env` (platform, `stat` results,
  `fs.utimes` results, binding status codes, `path._makeLong`).
  `set` returns the trace of attempted operations paired with the
  call's final result.
-/

namespace Utimes

/-- A JavaScript string, as its list of Unicode code points.
The null character `'\u0000'` is the code point `0`. -/
abbrev JSString := List ℕ

/-- The host platform, as tested by `process.platform` on lines 28.
`linux` stands for every platform other than `win32`/`darwin` (the code
treats them all by the `fs` fallback branches, commented "On Linux"). -/
inductive Platform
  | win32
  | darwin
  | linux
  deriving DecidableEq, Repr

/-- A label identifying which argument an error message names: the `key`
strings `'path'`, `` `paths[${i}]` ``, `'btime'`, `'mtime'`, `'atime'`
passed to `assertPath` / `assertTime`. -/
inductive ErrKey
  | path
  | pathsIdx (i : ℕ)
  | btime
  | mtime
  | atime
  deriving DecidableEq, Repr

/-- The errors `src/index.js` can throw or reject with, one constructor per
distinct `throw` site / message shape. -/
inductive JsError
  /-- line 68: `'path must be a string or array'` -/
  | pathsNotStringOrArray
  /-- line 79: `'options must be an object'` -/
  | optionsNotObject
  /-- `TypeError` raised by `options.btime` on line 82 when `options`
  is `null` (which passes `typeof options !== 'object'` on line 78,
  since `typeof null === 'object'` in JavaScript). -/
  | nullPropertyAccess
  /-- line 144: `` key + ' must be a string' `` -/
  | notAString (k : ErrKey)
  /-- line 147: `` key + ' must not be empty' `` -/
  | emptyPath (k : ErrKey)
  /-- line 150: `` key + ' must be a string without null bytes' `` -/
  | nullBytePath (k : ErrKey)
  /-- line 136 (`pathBuffer`): `'path must be a string without null bytes'` -/
  | bufferNullByte
  /-- line 159: `` key + ' must be a number or undefined' `` -/
  | notANumber (k : ErrKey)
  /-- line 162: `` key + ' must be an integer' `` -/
  | notAnInteger (k : ErrKey)
  /-- line 165: `` key + ' must be a positive integer' `` -/
  | negativeTime (k : ErrKey)
  /-- line 168: `` key + ' must not be more than ...' `` -/
  | timeTooLarge (k : ErrKey)
  /-- a rejection of the promisified `fs.utimes` / `fs.stat`, carrying the
  path and the OS error code -/
  | osError (p : JSString) (code : ℤ)
  /-- line 120: `` `(${result}), utimes(${path})` `` for a non-zero binding
  status code -/
  | bindingFailed (p : JSString) (code : ℤ)
  deriving DecidableEq, Repr

/-- The spec's error kinds (§7). -/
inductive ErrorKind
  | invalidArgument
  | invalidPath
  | invalidTime
  | typeError
  | nativeCallFailed
  | osFailure
  deriving DecidableEq, Repr

/-- Classify each error of the code into the spec's kinds. -/
def kindOf : JsError → ErrorKind
  | .pathsNotStringOrArray => .invalidArgument
  | .optionsNotObject => .invalidArgument
  | .nullPropertyAccess => .typeError
  | .notAString _ => .invalidPath
  | .emptyPath _ => .invalidPath
  | .nullBytePath _ => .invalidPath
  | .bufferNullByte => .invalidPath
  | .notANumber _ => .invalidTime
  | .notAnInteger _ => .invalidTime
  | .negativeTime _ => .invalidTime
  | .timeTooLarge _ => .invalidTime
  | .osError _ _ => .osFailure
  | .bindingFailed _ _ => .nativeCallFailed

/-- The `key` an error message names, when it names one. -/
def labelOf : JsError → Option ErrKey
  | .notAString k => some k
  | .emptyPath k => some k
  | .nullBytePath k => some k
  | .notANumber k => some k
  | .notAnInteger k => some k
  | .negativeTime k => some k
  | .timeTooLarge k => some k
  | _ => none

/-- One element of a `paths` array argument: a string, or any
non-string value. -/
inductive PathElem
  | str (s : JSString)
  | nonstr
  deriving DecidableEq, Repr

/-- The `paths` argument of `set`: a string, an array, or any other
value (neither string nor array). -/
inductive PathsArg
  | str (s : JSString)
  | arr (elems : List PathElem)
  | other
  deriving DecidableEq, Repr

/-- One optional time field of the `options` object: `undefined` (absent),
a number, or a present non-number value. -/
inductive TimeVal
  | undef
  | num (q : ℚ)
  | nonNum
  deriving DecidableEq, Repr

/-- The `options` argument of `set`: an object (with its three optional
time fields), `null`, or any value whose `typeof` is not `'object'`
(`undefined`, number, string, boolean, function, ...). -/
inductive OptionsArg
  | obj (btime mtime atime : TimeVal)
  | null
  | nonObject
  deriving DecidableEq, Repr

/-- The normalized times returned by `getFullOptions` (lines 86-90):
every field populated, absent fields replaced by `0`. -/
structure FullTimes where
  btime : ℚ
  mtime : ℚ
  atime : ℚ
  deriving DecidableEq, Repr

/-- `assertPath(key, value)`, lines 142-152: value must be a string,
non-empty, and contain no `'\u0000'`. -/
def assertPath (k : ErrKey) : PathElem → Except JsError Unit
  | .nonstr => .error (.notAString k)
  | .str s =>
    if s.length = 0 then .error (.emptyPath k)
    else if 0 ∈ s then .error (.nullBytePath k)
    else .ok ()

/-- The element-wise validation loop of `normalizePaths` (lines 60-63),
carrying the current index `i` for the `` `paths[${i}]` `` label; the
first `throw` aborts the loop. -/
def validatePathsFrom (i : ℕ) : List PathElem → Except JsError Unit
  | [] => .ok ()
  | e :: rest =>
    match assertPath (.pathsIdx i) e with
    | .error err => .error err
    | .ok () => validatePathsFrom (i + 1) rest

/-- The string carried by an already-validated array element. -/
def elemStr : PathElem → JSString
  | .str s => s
  | .nonstr => []

/-- `normalizePaths(paths)`, lines 53-69. -/
def normalizePaths : PathsArg → Except JsError (List JSString)
  | .str s =>
    match assertPath .path (.str s) with
    | .error err => .error err
    | .ok () => .ok [s]
  | .arr es =>
    match validatePathsFrom 0 es with
    | .error err => .error err
    | .ok () => .ok (es.map elemStr)
  | .other => .error .pathsNotStringOrArray

/-- `assertTime(key, value)`, lines 154-170: `undefined` is accepted;
otherwise the value must be a number with `Math.floor(value) === value`
(i.e. an integer, rendered here as denominator `1` — see
`den_one_iff_floor_eq` below), `value >= 0` and `value <= 2^48 - 1`,
the checks made in that order. -/
def assertTime (k : ErrKey) : TimeVal → Except JsError Unit
  | .undef => .ok ()
  | .nonNum => .error (.notANumber k)
  | .num q =>
    if q.den ≠ 1 then .error (.notAnInteger k)
    else if q < 0 then .error (.negativeTime k)
    else if q > 281474976710655 then .error (.timeTooLarge k)
    else .ok ()

/-- `value || 0`: a present number is kept unless it is falsy (`0`);
`undefined` becomes `0`. (After `assertTime`, the only falsy number
possible is `0` itself, so `q || 0 = q` for numbers.) -/
def orZero : TimeVal → ℚ
  | .num q => if q = 0 then 0 else q
  | _ => 0

/-- `getFullOptions(options)`, lines 77-91. `typeof options !== 'object'`
rejects every non-object value except `null`; for `null` the property
access `options.btime` throws a `TypeError`. -/
def getFullOptions : OptionsArg → Except JsError FullTimes
  | .nonObject => .error .optionsNotObject
  | .null => .error .nullPropertyAccess
  | .obj b m a =>
    match assertTime .btime b with
    | .error err => .error err
    | .ok () =>
      match assertTime .mtime m with
      | .error err => .error err
      | .ok () =>
        match assertTime .atime a with
        | .error err => .error err
        | .ok () => .ok ⟨orZero b, orZero m, orZero a⟩

/-- `getFlags(options)`, lines 99-107: `flags |= 1` for truthy `btime`,
`|= 2` for truthy `mtime`, `|= 4` for truthy `atime`. -/
def getFlags (t : FullTimes) : ℕ :=
  0 ||| (if t.btime ≠ 0 then 1 else 0)
    ||| (if t.mtime ≠ 0 then 2 else 0)
    ||| (if t.atime ≠ 0 then 4 else 0)

/-- UTF-8 encoding of one code point, as `Buffer.write(..., 'utf-8')`
performs it byte by byte. (Unpaired surrogates are replaced by U+FFFD
by Node; the replacement is in the 3-byte range, so the claims about
null bytes are unaffected and we encode code points directly.) -/
def utf8Bytes (c : ℕ) : List ℕ :=
  if c < 0x80 then [c]
  else if c < 0x800 then [0xC0 + c / 0x40, 0x80 + c % 0x40]
  else if c < 0x10000 then
    [0xE0 + c / 0x1000, 0x80 + c / 0x40 % 0x40, 0x80 + c % 0x40]
  else
    [0xF0 + c / 0x40000, 0x80 + c / 0x1000 % 0x40,
     0x80 + c / 0x40 % 0x40, 0x80 + c % 0x40]

/-- UTF-8 encoding of a string. -/
def utf8Encode (s : JSString) : List ℕ :=
  s.flatMap utf8Bytes

/-- The buffer built by `pathBuffer` (lines 130-133): `Buffer.alloc`
of the UTF-8 byte length of `path._makeLong(target)` plus one, the
encoded bytes written at offset 0, and the final byte forced to `0`. -/
def rawPathBuffer (makeLong : JSString → JSString) (target : JSString) :
    List ℕ :=
  utf8Encode (makeLong target) ++ [0]

/-- `pathBuffer(target)`, lines 128-140. `path._makeLong` is Node's
long-path normalization (an external collaborator per the spec), passed
in as a parameter. The guard on line 135 rejects the buffer when its
first `0` byte is not at the final (terminator) position. -/
def pathBuffer (makeLong : JSString → JSString) (target : JSString) :
    Except JsError (List ℕ) :=
  let buffer := rawPathBuffer makeLong target
  if buffer.indexOf 0 ≠ buffer.length - 1 then .error .bufferNullByte
  else .ok buffer

/-- One filesystem / native-binding call issued by `set`, with the
arguments the code passes. Times handed to `fs.utimes` are in (possibly
fractional) seconds; times handed to the binding are in milliseconds. -/
inductive FsOp
  /-- `stat(target)` (line 40) -/
  | stat (p : JSString)
  /-- `utimes(target, atimeSec, mtimeSec)` (lines 35, 42) -/
  | utimes (p : JSString) (atimeSec mtimeSec : ℚ)
  /-- `binding.utimes(buffer, flags, btime, mtime, atime, cb)` (line 118) -/
  | binding (buf : List ℕ) (flags : ℕ) (btime mtime atime : ℚ)
  deriving DecidableEq, Repr

/-- The environment resolving the outcome of each external call:
the host platform, `path._makeLong`, the binding's status code, the
mtime (in milliseconds) returned by `fs.stat` or its failure code, and
the outcome of `fs.utimes` (`none` = success, `some code` = failure). -/
structure Env where
  platform : Platform
  makeLong : JSString → JSString
  bindingRes : JSString → ℤ
  statMtime : JSString → Except ℤ ℚ
  utimesRes : JSString → ℚ → ℚ → Option ℤ

/-- The atime argument chosen on line 34:
`flags & 4 ? times.atime : times.mtime`. -/
def linuxAtimeArg (times : FullTimes) (flags : ℕ) : ℚ :=
  if flags &&& 4 ≠ 0 then times.atime else times.mtime

/-- The body of the `for` loop of `set` for one `target` (lines 26-44):
the decision tree between the native binding (win32/darwin), the
combined `utimes` call (`flags & 2`), and the stat-then-`utimes`
fallback. Returns the trace of attempted calls and `none` on success or
the error the iteration rejects with. -/
def applyTarget (env : Env) (times : FullTimes) (flags : ℕ)
    (target : JSString) : List FsOp × Option JsError :=
  if env.platform = .win32 ∨ env.platform = .darwin then
    match pathBuffer env.makeLong target with
    | .error e => ([], some e)
    | .ok buf =>
      let r := env.bindingRes target
      ([.binding buf flags times.btime times.mtime times.atime],
       if r ≠ 0 then some (.bindingFailed target r) else none)
  else if flags &&& 2 ≠ 0 then
    let atime := linuxAtimeArg times flags
    ([.utimes target (atime / 1000) (times.mtime / 1000)],
     (env.utimesRes target (atime / 1000) (times.mtime / 1000)).map
       (.osError target))
  else
    match env.statMtime target with
    | .error c => ([.stat target], some (.osError target c))
    | .ok mt =>
      ([.stat target, .utimes target (times.atime / 1000) (mt / 1000)],
       (env.utimesRes target (times.atime / 1000) (mt / 1000)).map
         (.osError target))

/-- The sequential `for (const target of targets)` loop (line 26):
each target is awaited to completion; the first rejection aborts the
remaining targets. -/
def runTargets (env : Env) (times : FullTimes) (flags : ℕ) :
    List JSString → List FsOp × Option JsError
  | [] => ([], none)
  | t :: rest =>
    match applyTarget env times flags t with
    | (ops, some e) => (ops, some e)
    | (ops, none) =>
      let r := runTargets env times flags rest
      (ops ++ r.1, r.2)

/-- `set(paths, options)`, lines 17-45: normalize the paths, normalize
the options, compute the flags, short-circuit when `!flags ||
!targets.length`, then iterate the targets. Returns the trace of
attempted filesystem/binding calls and the call's result. -/
def set (env : Env) (paths : PathsArg) (options : OptionsArg) :
    List FsOp × Except JsError Unit :=
  match normalizePaths paths with
  | .error e => ([], .error e)
  | .ok targets =>
    match getFullOptions options with
    | .error e => ([], .error e)
    | .ok times =>
      let flags := getFlags times
      if flags = 0 ∨ targets.length = 0 then ([], .ok ())
      else
        match runTargets env times flags targets with
        | (ops, none) => (ops, .ok ())
        | (ops, some e) => (ops, .error e)

/-- A path-array element that `assertPath` accepts: a non-empty string
with no null code point. -/
def goodElem : PathElem → Prop
  | .str s => s ≠ [] ∧ 0 ∉ s
  | .nonstr => False

instance : DecidablePred goodElem := fun e =>
  match e with
  | .str s => inferInstanceAs (Decidable (s ≠ [] ∧ 0 ∉ s))
  | .nonstr => inferInstanceAs (Decidable False)

/-- A concrete fallback-platform environment for witnesses: every `stat`
reports an mtime of 2000 ms and every `fs.utimes` call succeeds. -/
def envLinux : Env where
  platform := .linux
  makeLong := id
  bindingRes := fun _ => 0
  statMtime := fun _ => .ok 2000
  utimesRes := fun _ _ _ => none

/-- A concrete fallback-platform environment in which `fs.utimes` fails
with code `-2` (ENOENT) exactly on the path `"b"` (`[98]`). -/
def envFail : Env where
  platform := .linux
  makeLong := id
  bindingRes := fun _ => 0
  statMtime := fun _ => .ok 2000
  utimesRes := fun p _ _ => if p = [98] then some (-2) else none

/-! ## Basic lemmas about the validators and flags -/

/-- The integrality test on line 161, `Math.floor(value) !== value`,
is exactly the denominator test used in `assertTime`. -/
theorem den_one_iff_floor_eq (q : ℚ) : q.den = 1 ↔ (⌊q⌋ : ℚ) = q := by
  constructor
  · intro h
    have h2 : (q.num : ℚ) = q := by
      rw [← Rat.den_eq_one_iff]; exact h
    rw [← h2, Int.floor_intCast]
  · intro h
    rw [← h, Rat.den_intCast]

/-- The bound on line 167 is `Math.pow(2, 48) - 1 = 281474976710655`. -/
theorem timeBound_eq : (281474976710655 : ℚ) = 2 ^ 48 - 1 := by norm_num

theorem assertPath_str_ok_iff (k : ErrKey) (s : JSString) :
    assertPath k (.str s) = .ok () ↔ s ≠ [] ∧ 0 ∉ s := by
  simp only [assertPath]
  split_ifs with h1 h2 <;> simp_all [List.length_eq_zero]

theorem assertPath_ok_iff (k : ErrKey) (e : PathElem) :
    assertPath k e = .ok () ↔ goodElem e := by
  cases e with
  | str s => rw [assertPath_str_ok_iff]; rfl
  | nonstr => simp [assertPath, goodElem]

theorem assertPath_error (k : ErrKey) (e : PathElem) (h : ¬ goodElem e) :
    ∃ err, assertPath k e = .error err ∧ kindOf err = .invalidPath ∧
      labelOf err = some k := by
  cases e with
  | nonstr => exact ⟨.notAString k, rfl, rfl, rfl⟩
  | str s =>
    simp only [assertPath]
    split_ifs with h1 h2
    · exact ⟨.emptyPath k, rfl, rfl, rfl⟩
    · exact ⟨.nullBytePath k, rfl, rfl, rfl⟩
    · exact absurd ⟨fun he => h1 (by simp [he]), h2⟩ h

theorem getFlags_and_one (t : FullTimes) :
    getFlags t &&& 1 ≠ 0 ↔ t.btime ≠ 0 := by
  unfold getFlags
  by_cases hb : t.btime = 0 <;> by_cases hm : t.mtime = 0 <;>
    by_cases ha : t.atime = 0 <;> simp [hb, hm, ha]

theorem getFlags_and_two (t : FullTimes) :
    getFlags t &&& 2 ≠ 0 ↔ t.mtime ≠ 0 := by
  unfold getFlags
  by_cases hb : t.btime = 0 <;> by_cases hm : t.mtime = 0 <;>
    by_cases ha : t.atime = 0 <;> simp [hb, hm, ha] <;> decide

theorem getFlags_and_four (t : FullTimes) :
    getFlags t &&& 4 ≠ 0 ↔ t.atime ≠ 0 := by
  unfold getFlags
  by_cases hb : t.btime = 0 <;> by_cases hm : t.mtime = 0 <;>
    by_cases ha : t.atime = 0 <;> simp [hb, hm, ha] <;> decide

theorem getFlags_eq_zero_iff (t : FullTimes) :
    getFlags t = 0 ↔ t.btime = 0 ∧ t.mtime = 0 ∧ t.atime = 0 := by
  unfold getFlags
  by_cases hb : t.btime = 0 <;> by_cases hm : t.mtime = 0 <;>
    by_cases ha : t.atime = 0 <;> simp [hb, hm, ha]

/-! ## Unfolding lemmas for `set` -/

theorem set_of_normalize_error (env : Env) (paths : PathsArg)
    (options : OptionsArg) (e : JsError)
    (h : normalizePaths paths = .error e) :
    set env paths options = ([], .error e) := by
  unfold set; rw [h]

theorem set_of_options_error (env : Env) (paths : PathsArg)
    (options : OptionsArg) (targets : List JSString) (e : JsError)
    (h1 : normalizePaths paths = .ok targets)
    (h2 : getFullOptions options = .error e) :
    set env paths options = ([], .error e) := by
  unfold set; rw [h1, h2]

theorem set_of_ok (env : Env) (paths : PathsArg) (options : OptionsArg)
    (targets : List JSString) (times : FullTimes)
    (h1 : normalizePaths paths = .ok targets)
    (h2 : getFullOptions options = .ok times) :
    set env paths options =
      (if getFlags times = 0 ∨ targets.length = 0 then ([], .ok ())
       else
         match runTargets env times (getFlags times) targets with
         | (ops, none) => (ops, .ok ())
         | (ops, some e) => (ops, .error e)) := by
  unfold set; rw [h1, h2]


/-! ## The validation loop of `normalizePaths` -/

theorem validatePathsFrom_ok_iff (es : List PathElem) :
    ∀ i, validatePathsFrom i es = .ok () ↔ ∀ e ∈ es, goodElem e := by
  induction es with
  | nil => intro i; simp [validatePathsFrom]
  | cons x xs ih =>
    intro i
    simp only [validatePathsFrom]
    cases hx : assertPath (.pathsIdx i) x with
    | error err =>
      have : ¬ goodElem x := by
        intro hg
        rw [← assertPath_ok_iff (.pathsIdx i) x] at hg
        rw [hx] at hg
        exact Except.noConfusion hg
      simp [this]
    | ok u =>
      cases u
      have hg : goodElem x := (assertPath_ok_iff (.pathsIdx i) x).mp hx
      simp [ih (i + 1), hg]

theorem validatePathsFrom_first_error (pre : List PathElem) (e : PathElem)
    (rest : List PathElem) (hpre : ∀ x ∈ pre, goodElem x)
    (he : ¬ goodElem e) :
    ∀ i, ∃ err, validatePathsFrom i (pre ++ e :: rest) = .error err ∧
      kindOf err = .invalidPath ∧
      labelOf err = some (.pathsIdx (i + pre.length)) := by
  induction pre with
  | nil =>
    intro i
    obtain ⟨err, herr, hk, hl⟩ := assertPath_error (.pathsIdx i) e he
    exact ⟨err, by simp [validatePathsFrom, herr], hk, by simpa using hl⟩
  | cons x xs ih =>
    intro i
    have hx : assertPath (.pathsIdx i) x = .ok () :=
      (assertPath_ok_iff _ _).mpr (hpre x (by simp))
    obtain ⟨err, h1, h2, h3⟩ :=
      ih (fun y hy => hpre y (by simp [hy])) (i + 1)
    refine ⟨err, by simp [validatePathsFrom, hx, h1], h2, ?_⟩
    rw [h3]
    have harith : i + 1 + xs.length = i + (x :: xs).length := by
      simp [List.length_cons]; omega
    rw [harith]

/-! ## The target iteration loop -/

theorem runTargets_first_error (env : Env) (times : FullTimes) (flags : ℕ)
    (t : JSString) (rest : List JSString) (e : JsError) :
    ∀ pre : List JSString,
      (∀ p ∈ pre, (applyTarget env times flags p).2 = none) →
      (applyTarget env times flags t).2 = some e →
      runTargets env times flags (pre ++ t :: rest) =
        (pre.flatMap (fun p => (applyTarget env times flags p).1)
          ++ (applyTarget env times flags t).1, some e) := by
  intro pre
  induction pre with
  | nil =>
    intro _ hfail
    rcases happly : applyTarget env times flags t with ⟨ops, res⟩
    rw [happly] at hfail
    simp only at hfail
    subst hfail
    simp [runTargets, happly]
  | cons x xs ih =>
    intro hpre hfail
    rcases hx : applyTarget env times flags x with ⟨xops, xres⟩
    have hxnone : xres = none := by
      have hmem := hpre x (by simp)
      rw [hx] at hmem
      simpa using hmem
    subst hxnone
    have hrec := ih (fun y hy => hpre y (by simp [hy])) hfail
    simp only [List.cons_append, runTargets, hx, hrec]
    simp [hx, hrec]

/-! ## UTF-8 encoding and `pathBuffer` -/

theorem utf8Bytes_zero_mem (c : ℕ) : 0 ∈ utf8Bytes c ↔ c = 0 := by
  unfold utf8Bytes
  split_ifs with h1 h2 h3 <;> simp <;> omega

theorem utf8Encode_zero_mem (s : JSString) : 0 ∈ utf8Encode s ↔ 0 ∈ s := by
  unfold utf8Encode
  rw [List.mem_flatMap]
  constructor
  · rintro ⟨c, hc, hmem⟩
    rw [utf8Bytes_zero_mem] at hmem
    rwa [hmem] at hc
  · intro h
    exact ⟨0, h, by simp [utf8Bytes]⟩

theorem pathBuffer_error_iff (makeLong : JSString → JSString)
    (target : JSString) :
    pathBuffer makeLong target = .error .bufferNullByte ↔
      0 ∈ utf8Encode (makeLong target) := by
  unfold pathBuffer rawPathBuffer
  by_cases hmem : 0 ∈ utf8Encode (makeLong target)
  · rw [if_pos]
    · simp [hmem]
    · rw [List.indexOf_append_of_mem hmem]
      have hlt : (utf8Encode (makeLong target)).indexOf 0 <
          (utf8Encode (makeLong target)).length :=
        List.indexOf_lt_length.mpr hmem
      simp only [List.length_append, List.length_cons, List.length_nil]
      omega
  · rw [if_neg]
    · simp [hmem]
    · rw [List.indexOf_append_of_not_mem hmem]
      simp [List.indexOf_cons]

theorem pathBuffer_ok_of_no_null (makeLong : JSString → JSString)
    (target : JSString) (h : 0 ∉ utf8Encode (makeLong target)) :
    pathBuffer makeLong target = .ok (rawPathBuffer makeLong target) := by
  unfold pathBuffer rawPathBuffer
  rw [if_neg]
  rw [List.indexOf_append_of_not_mem h]
  simp [List.indexOf_cons]

theorem runTargets_singleton (env : Env) (times : FullTimes) (flags : ℕ)
    (t : JSString) :
    (runTargets env times flags [t]).1 = (applyTarget env times flags t).1 := by
  rcases ha : applyTarget env times flags t with ⟨aops, ares⟩
  cases ares <;> simp [runTargets, ha]

theorem set_single_trace (env : Env) (paths : PathsArg)
    (options : OptionsArg) (s : JSString) (times : FullTimes)
    (h1 : normalizePaths paths = .ok [s])
    (h2 : getFullOptions options = .ok times)
    (hf : getFlags times ≠ 0) :
    (set env paths options).1 = (applyTarget env times (getFlags times) s).1 := by
  rw [set_of_ok env paths options [s] times h1 h2, if_neg (by simp [hf])]
  rcases h : runTargets env times (getFlags times) [s] with ⟨ops, res⟩
  have hops : ops = (applyTarget env times (getFlags times) s).1 := by
    have h2' := runTargets_singleton env times (getFlags times) s
    rw [h] at h2'
    exact h2'
  cases res <;> simpa using hops

theorem applyTarget_linux_mtime (env : Env) (hp : env.platform = .linux)
    (times : FullTimes) (flags : ℕ) (hm : flags &&& 2 ≠ 0) (t : JSString) :
    applyTarget env times flags t =
      ([.utimes t (linuxAtimeArg times flags / 1000) (times.mtime / 1000)],
       (env.utimesRes t (linuxAtimeArg times flags / 1000)
          (times.mtime / 1000)).map (.osError t)) := by
  unfold applyTarget
  rw [hp]
  simp [hm]

theorem applyTarget_linux_stat (env : Env) (hp : env.platform = .linux)
    (times : FullTimes) (flags : ℕ) (hm : flags &&& 2 = 0) (t : JSString)
    (mt : ℚ) (hstat : env.statMtime t = .ok mt) :
    applyTarget env times flags t =
      ([.stat t, .utimes t (times.atime / 1000) (mt / 1000)],
       (env.utimesRes t (times.atime / 1000) (mt / 1000)).map
         (.osError t)) := by
  unfold applyTarget
  rw [hp]
  simp [hm, hstat]

theorem assertTime_error_kind (k : ErrKey) (v : TimeVal) (e : JsError)
    (h : assertTime k v = .error e) :
    kindOf e = .invalidTime ∧ labelOf e = some k := by
  cases v with
  | undef => exact Except.noConfusion h
  | nonNum =>
    injection h with h4
    subst h4
    exact ⟨rfl, rfl⟩
  | num q =>
    simp only [assertTime] at h
    split_ifs at h with h1 h2 h3 <;> injection h with h4 <;> subst h4 <;>
      exact ⟨rfl, rfl⟩

/-! ## Claim theorems -/

/-- C1: the claim states that on the fallback (Linux) platform a
btime-only request (`BTIME` bit set, `MTIME` and `ATIME` unset) performs
no filesystem operation and changes no metadata. The code does the
opposite: with `flags = 1` the branch on line 33 (`flags & 2`) is false,
so the unguarded `else` on line 39 runs, issuing a `stat` followed by a
`utimes` call that sets atime to `times.atime = 0` (the epoch) and
rewrites mtime with the value just read. Concretely, for the path `"a"`
(`[97]`) with `{btime: 5000}` on Linux (current mtime 2000 ms), the call
performs a `stat` and a `utimes(path, 0/1000, 2000/1000)` — a non-empty
trace, mutating atime. -/
theorem set_btimeOnly_linux_mutates :
    set envLinux (.str [97]) (.obj (.num 5000) .undef .undef) =
      ([.stat [97], .utimes [97] ((0 : ℚ) / 1000) ((2000 : ℚ) / 1000)],
       .ok ()) ∧
    (set envLinux (.str [97]) (.obj (.num 5000) .undef .undef)).1 ≠ [] :=
  ⟨rfl, by decide⟩

/-- C4: whenever both validations succeed, a zero update mask (all three
normalized time fields zero, i.e. every field absent or zero) or an
empty target list makes `set` return successfully with no filesystem
operation at all (lines 22-24). -/
theorem set_noop_on_zero_mask_or_empty_targets (env : Env)
    (paths : PathsArg) (options : OptionsArg) (targets : List JSString)
    (times : FullTimes)
    (h1 : normalizePaths paths = .ok targets)
    (h2 : getFullOptions options = .ok times)
    (h : (times.btime = 0 ∧ times.mtime = 0 ∧ times.atime = 0) ∨
      targets = []) :
    set env paths options = ([], .ok ()) := by
  rw [set_of_ok env paths options targets times h1 h2]
  rw [if_pos]
  rcases h with h | h
  · exact Or.inl ((getFlags_eq_zero_iff times).mpr h)
  · exact Or.inr (by simp [h])

/-- Witness for C4: `set('a', {})` on Linux succeeds with an empty
trace. -/
theorem set_noop_on_zero_mask_or_empty_targets_witness :
    set envLinux (.str [97]) (.obj .undef .undef .undef) = ([], .ok ()) :=
  set_noop_on_zero_mask_or_empty_targets envLinux (.str [97])
    (.obj .undef .undef .undef) [[97]] ⟨0, 0, 0⟩ rfl rfl
    (Or.inl (by decide))

/-- C7 counterexample: `set('a', null)` does not fail with the
`InvalidArgument` error. `typeof null === 'object'` passes the guard on
line 78, and the property access `options.btime` on line 82 throws a
`TypeError` instead. -/
theorem null_options_typeError_cex :
    set envLinux (.str [97]) .null = ([], .error .nullPropertyAccess) ∧
    kindOf .nullPropertyAccess ≠ .invalidArgument :=
  ⟨rfl, by decide⟩

/-- C7 amended: a paths argument that is neither a string nor an array
fails with the `InvalidArgument` error of line 68; an options value
whose `typeof` is not `'object'` (hence non-object and non-null) fails
with the `InvalidArgument` error of line 79; a `null` options value
instead fails with a `TypeError` from the property access on line 82.
In each case no filesystem operation is attempted. -/
theorem invalidArgument_errors_spec (env : Env) (paths : PathsArg)
    (options : OptionsArg) (targets : List JSString) :
    (set env .other options = ([], .error .pathsNotStringOrArray) ∧
      kindOf .pathsNotStringOrArray = .invalidArgument) ∧
    (normalizePaths paths = .ok targets →
      set env paths .nonObject = ([], .error .optionsNotObject) ∧
        kindOf .optionsNotObject = .invalidArgument) ∧
    (normalizePaths paths = .ok targets →
      set env paths .null = ([], .error .nullPropertyAccess) ∧
        kindOf .nullPropertyAccess = .typeError) :=
  ⟨⟨set_of_normalize_error env .other options _ rfl, rfl⟩,
   fun h1 => ⟨set_of_options_error env paths .nonObject targets _ h1 rfl, rfl⟩,
   fun h1 => ⟨set_of_options_error env paths .null targets _ h1 rfl, rfl⟩⟩

/-- Witness for the amended C7: a boolean-like options argument on a
valid path fails with the `InvalidArgument` error. -/
theorem invalidArgument_errors_spec_witness :
    set envLinux (.str [97]) .nonObject = ([], .error .optionsNotObject) ∧
      kindOf .optionsNotObject = .invalidArgument :=
  (invalidArgument_errors_spec envLinux (.str [97]) .nonObject [[97]]).2.1 rfl

/-- C10: both validations run before the no-op short-circuit on
line 22: a failing `normalizePaths` makes `set` reject with that error
and an empty trace whatever the options are, and a failing
`getFullOptions` makes `set` reject with that error and an empty trace
whatever the (validated) targets are — including an empty target list
or a zero mask. -/
theorem validation_precedes_noop_shortcircuit (env : Env)
    (paths : PathsArg) (options : OptionsArg) :
    (∀ e, normalizePaths paths = .error e →
      set env paths options = ([], .error e)) ∧
    (∀ targets e, normalizePaths paths = .ok targets →
      getFullOptions options = .error e →
      set env paths options = ([], .error e)) :=
  ⟨fun e h => set_of_normalize_error env paths options e h,
   fun targets e h1 h2 => set_of_options_error env paths options targets e h1 h2⟩

/-- Witness for C10: an empty target array still surfaces the invalid
negative `btime` instead of completing as a no-op. -/
theorem validation_precedes_noop_shortcircuit_witness :
    set envLinux (.arr []) (.obj (.num (-1)) .undef .undef) =
      ([], .error (.negativeTime .btime)) :=
  (validation_precedes_noop_shortcircuit envLinux (.arr [])
    (.obj (.num (-1)) .undef .undef)).2 [] (.negativeTime .btime) rfl rfl

/-- C2: on the fallback (Linux) platform, for a valid path and validated
options whose `MTIME` bit is set, `set` issues exactly one combined
`utimes` call: its mtime argument is the requested mtime and its atime
argument is the requested atime when the `ATIME` bit is also set and the
requested mtime otherwise, both divided by 1000 (milliseconds to
seconds; lines 33-36). -/
theorem set_linux_mtime_combined_call (env : Env)
    (hp : env.platform = .linux) (s : JSString)
    (hs : assertPath .path (.str s) = .ok ())
    (options : OptionsArg) (times : FullTimes)
    (ho : getFullOptions options = .ok times)
    (hm : getFlags times &&& 2 ≠ 0) :
    (set env (.str s) options).1 =
      [FsOp.utimes s
        ((if getFlags times &&& 4 ≠ 0 then times.atime else times.mtime)
          / 1000)
        (times.mtime / 1000)] := by
  have h1 : normalizePaths (.str s) = .ok [s] := by
    simp [normalizePaths, hs]
  have hf : getFlags times ≠ 0 := by
    intro h0
    rw [h0] at hm
    exact hm rfl
  rw [set_single_trace env (.str s) options s times h1 ho hf,
    applyTarget_linux_mtime env hp times (getFlags times) hm s]
  simp [linuxAtimeArg]

/-- Witness for C2: `set('a', {mtime: 4000, atime: 6000})` on Linux
issues the single call `utimes('a', 6000/1000, 4000/1000)`. -/
theorem set_linux_mtime_combined_call_witness :
    (set envLinux (.str [97]) (.obj .undef (.num 4000) (.num 6000))).1 =
      [FsOp.utimes [97]
        ((if getFlags ⟨0, 4000, 6000⟩ &&& 4 ≠ 0 then (6000 : ℚ) else 4000)
          / 1000)
        ((4000 : ℚ) / 1000)] :=
  set_linux_mtime_combined_call envLinux rfl [97] rfl
    (.obj .undef (.num 4000) (.num 6000)) ⟨0, 4000, 6000⟩ rfl (by decide)

/-- C3: on the fallback (Linux) platform, for a valid path and validated
options whose `MTIME` bit is unset and `ATIME` bit is set, when the
`stat` of the path reports the current mtime `mt`, `set` first issues
that `stat` and then one combined `utimes` call with the requested atime
and the just-read `mt`, both divided by 1000 — so the mtime value
written back equals the one just read (lines 38-43). -/
theorem set_linux_atimeOnly_stat_then_utimes (env : Env)
    (hp : env.platform = .linux) (s : JSString)
    (hs : assertPath .path (.str s) = .ok ())
    (options : OptionsArg) (times : FullTimes)
    (ho : getFullOptions options = .ok times)
    (hm : getFlags times &&& 2 = 0) (ha : getFlags times &&& 4 ≠ 0)
    (mt : ℚ) (hstat : env.statMtime s = .ok mt) :
    (set env (.str s) options).1 =
      [FsOp.stat s, FsOp.utimes s (times.atime / 1000) (mt / 1000)] := by
  have h1 : normalizePaths (.str s) = .ok [s] := by
    simp [normalizePaths, hs]
  have hf : getFlags times ≠ 0 := by
    intro h0
    rw [h0] at ha
    exact ha rfl
  rw [set_single_trace env (.str s) options s times h1 ho hf,
    applyTarget_linux_stat env hp times (getFlags times) hm s mt hstat]

/-- Witness for C3: `set('a', {atime: 6000})` on Linux (current mtime
2000 ms) issues `stat('a')` then `utimes('a', 6000/1000, 2000/1000)`. -/
theorem set_linux_atimeOnly_stat_then_utimes_witness :
    (set envLinux (.str [97]) (.obj .undef .undef (.num 6000))).1 =
      [FsOp.stat [97],
       FsOp.utimes [97] ((6000 : ℚ) / 1000) ((2000 : ℚ) / 1000)] :=
  set_linux_atimeOnly_stat_then_utimes envLinux rfl [97] rfl
    (.obj .undef .undef (.num 6000)) ⟨0, 0, 6000⟩ rfl (by decide)
    (by decide) 2000 rfl

/-- C5: `assertTime` accepts exactly `undefined` and the non-negative
integers up to `2^48 - 1`; a present non-number, non-integer, negative,
or too-large value is rejected with an `InvalidTime`-kind error naming
the field; and any `getFullOptions` failure surfaces from `set` with an
empty trace, i.e. before any filesystem operation (lines 154-170 and
19). -/
theorem assertTime_validation_spec (k : ErrKey) :
    (∀ n : ℕ, (n : ℚ) ≤ 2 ^ 48 - 1 → assertTime k (.num n) = .ok ()) ∧
    assertTime k .undef = .ok () ∧
    assertTime k .nonNum = .error (.notANumber k) ∧
    (∀ q : ℚ, q.den ≠ 1 →
      assertTime k (.num q) = .error (.notAnInteger k)) ∧
    (∀ q : ℚ, q.den = 1 → q < 0 →
      assertTime k (.num q) = .error (.negativeTime k)) ∧
    (∀ q : ℚ, q.den = 1 → 0 ≤ q → q > 2 ^ 48 - 1 →
      assertTime k (.num q) = .error (.timeTooLarge k)) ∧
    (∀ v e, assertTime k v = .error e →
      kindOf e = .invalidTime ∧ labelOf e = some k) ∧
    (∀ (env : Env) (paths : PathsArg) targets b m a e,
      normalizePaths paths = .ok targets →
      getFullOptions (.obj b m a) = .error e →
      set env paths (.obj b m a) = ([], .error e)) ∧
    (∀ b m a,
      (assertTime .btime b ≠ .ok () ∨ assertTime .mtime m ≠ .ok () ∨
        assertTime .atime a ≠ .ok ()) →
      ∃ e, getFullOptions (.obj b m a) = .error e ∧
        kindOf e = .invalidTime) := by
  refine ⟨?accept, rfl, rfl, ?nonint, ?neg, ?large, ?kinds, ?beforeFs, ?link⟩
  case accept =>
    intro n hn
    simp only [assertTime]
    split_ifs with h1 h2 h3
    · exact absurd (Rat.den_natCast n) h1
    · exact absurd h2 (not_lt.mpr (by positivity))
    · rw [← timeBound_eq] at hn
      exact absurd h3 (not_lt.mpr hn)
    · rfl
  case nonint =>
    intro q hq
    simp only [assertTime]
    rw [if_pos hq]
  case neg =>
    intro q h1 h2
    simp only [assertTime]
    rw [if_neg (not_not_intro h1), if_pos h2]
  case large =>
    intro q h1 h2 h3
    rw [← timeBound_eq] at h3
    simp only [assertTime]
    rw [if_neg (not_not_intro h1), if_neg (not_lt.mpr h2), if_pos h3]
  case kinds => exact fun v e h => assertTime_error_kind k v e h
  case beforeFs =>
    exact fun env paths targets b m a e h1 h2 =>
      set_of_options_error env paths (.obj b m a) targets e h1 h2
  case link =>
    intro b m a h
    cases hb : assertTime .btime b with
    | error e =>
      exact ⟨e, by simp [getFullOptions, hb],
        (assertTime_error_kind .btime b e hb).1⟩
    | ok u =>
      cases u
      cases hm : assertTime .mtime m with
      | error e =>
        exact ⟨e, by simp [getFullOptions, hb, hm],
          (assertTime_error_kind .mtime m e hm).1⟩
      | ok u =>
        cases u
        cases ha : assertTime .atime a with
        | error e =>
          exact ⟨e, by simp [getFullOptions, hb, hm, ha],
            (assertTime_error_kind .atime a e ha).1⟩
        | ok u =>
          cases u
          rcases h with h | h | h <;> exact absurd (by assumption) h

/-- Witness for C5: `mtime = 3000` passes validation, while a present
non-number `mtime` surfaces from `set` as an `InvalidTime` error with an
empty trace. -/
theorem assertTime_validation_spec_witness :
    assertTime .mtime (.num 3000) = .ok () ∧
    (∃ e, getFullOptions (.obj .undef .nonNum .undef) = .error e ∧
      kindOf e = .invalidTime) :=
  ⟨(assertTime_validation_spec .mtime).1 3000
      (by rw [← timeBound_eq]; decide),
   (assertTime_validation_spec .mtime).2.2.2.2.2.2.2.2 .undef .nonNum .undef
      (Or.inr (Or.inl (fun h => Except.noConfusion h)))⟩

/-- C6: an invalid path — a non-string element, an empty string, or a
string containing the null character — makes `set` fail with an
`InvalidPath`-kind error and an empty trace (no I/O), and for array
inputs the first offending element is labelled `paths[i]` with its
positional index (lines 53-69 and 142-152). -/
theorem invalid_path_rejected_with_label (env : Env)
    (options : OptionsArg) :
    (∀ s : JSString, s = [] ∨ 0 ∈ s →
      ∃ err, set env (.str s) options = ([], .error err) ∧
        kindOf err = .invalidPath ∧ labelOf err = some .path) ∧
    (∀ (pre : List PathElem) (e : PathElem) (rest : List PathElem),
      (∀ x ∈ pre, goodElem x) → ¬ goodElem e →
      ∃ err, set env (.arr (pre ++ e :: rest)) options =
          ([], .error err) ∧
        kindOf err = .invalidPath ∧
        labelOf err = some (.pathsIdx pre.length)) := by
  constructor
  · intro s hs
    have hbad : ¬ goodElem (.str s) := by
      rcases hs with h | h
      · simp [goodElem, h]
      · simp [goodElem, h]
    obtain ⟨err, herr, hk, hl⟩ := assertPath_error .path (.str s) hbad
    refine ⟨err, ?_, hk, hl⟩
    apply set_of_normalize_error
    simp [normalizePaths, herr]
  · intro pre e rest hpre he
    obtain ⟨err, herr, hk, hl⟩ :=
      validatePathsFrom_first_error pre e rest hpre he 0
    refine ⟨err, ?_, hk, by simpa using hl⟩
    apply set_of_normalize_error
    simp [normalizePaths, herr]

/-- Witness for C6: in `set(['a', ''], {})` the empty second element is
reported as `InvalidPath` at label `paths[1]` with an empty trace. -/
theorem invalid_path_rejected_with_label_witness :
    ∃ err, set envLinux (.arr [.str [97], .str []])
        (.obj .undef .undef .undef) = ([], .error err) ∧
      kindOf err = .invalidPath ∧ labelOf err = some (.pathsIdx 1) := by
  have h := (invalid_path_rejected_with_label envLinux
      (.obj .undef .undef .undef)).2 [.str [97]] (.str []) []
      (by decide) (by decide)
  simpa using h

/-- C8: targets are processed strictly sequentially in list order; when
every target before `t` succeeds and `t` fails with error `e`, the whole
call rejects with exactly `e`, the trace is precisely the concatenated
operations of the earlier targets (applied and never rolled back)
followed by the attempt on `t`, and no operation is ever attempted on
the targets after `t` (lines 26-44). -/
theorem first_failure_aborts_iteration (env : Env) (paths : PathsArg)
    (options : OptionsArg) (targets : List JSString) (times : FullTimes)
    (pre : List JSString) (t : JSString) (rest : List JSString)
    (e : JsError)
    (h1 : normalizePaths paths = .ok targets)
    (h2 : getFullOptions options = .ok times)
    (hf : getFlags times ≠ 0)
    (hsplit : targets = pre ++ t :: rest)
    (hpre : ∀ p ∈ pre, (applyTarget env times (getFlags times) p).2 = none)
    (hfail : (applyTarget env times (getFlags times) t).2 = some e) :
    set env paths options =
      (pre.flatMap (fun p => (applyTarget env times (getFlags times) p).1)
        ++ (applyTarget env times (getFlags times) t).1, .error e) := by
  rw [set_of_ok env paths options targets times h1 h2, hsplit]
  rw [if_neg (by simp [hf])]
  rw [runTargets_first_error env times (getFlags times) t rest e pre
    hpre hfail]

/-- Witness for C8: `set(['a','b','c'], {mtime: 4000})` on Linux where
`utimes` fails on `'b'`: `'a'` is updated, the attempt on `'b'` is in
the trace, `'c'` is never touched, and the call rejects with the error
of `'b'`. -/
theorem first_failure_aborts_iteration_witness :
    set envFail (.arr [.str [97], .str [98], .str [99]])
        (.obj .undef (.num 4000) .undef) =
      ([FsOp.utimes [97] ((4000 : ℚ) / 1000) ((4000 : ℚ) / 1000),
        FsOp.utimes [98] ((4000 : ℚ) / 1000) ((4000 : ℚ) / 1000)],
       .error (.osError [98] (-2))) :=
  first_failure_aborts_iteration envFail
    (.arr [.str [97], .str [98], .str [99]])
    (.obj .undef (.num 4000) .undef) [[97], [98], [99]] ⟨0, 4000, 0⟩
    [[97]] [98] [[99]] (.osError [98] (-2)) rfl rfl (by decide) rfl
    (by decide) (by decide)

/-- C9: the buffer built by `pathBuffer` is one byte longer than the
UTF-8 encoding of the long-path form and its final byte is zero; the
function fails — with the `InvalidPath`-kind error of line 136 — exactly
when a null byte occurs at a position other than that final terminator;
and for any long-path normalization that introduces no null code point,
a target that already passed `assertPath` (the high-level null check)
can never reach that error branch (lines 128-140). -/
theorem pathBuffer_null_terminated_spec (makeLong : JSString → JSString)
    (target : JSString) :
    (rawPathBuffer makeLong target).length =
        (utf8Encode (makeLong target)).length + 1 ∧
    (rawPathBuffer makeLong target).getLast? = some 0 ∧
    (pathBuffer makeLong target = .error .bufferNullByte ↔
      0 ∈ utf8Encode (makeLong target)) ∧
    kindOf .bufferNullByte = .invalidPath ∧
    ((∀ s : JSString, 0 ∉ s → 0 ∉ makeLong s) →
      assertPath .path (.str target) = .ok () →
      pathBuffer makeLong target = .ok (rawPathBuffer makeLong target)) := by
  refine ⟨by simp [rawPathBuffer], by simp [rawPathBuffer],
    pathBuffer_error_iff makeLong target, rfl, ?_⟩
  intro hml hok
  obtain ⟨-, hnull⟩ := (assertPath_str_ok_iff .path target).mp hok
  refine pathBuffer_ok_of_no_null makeLong target (fun hmem => ?_)
  exact hml target hnull ((utf8Encode_zero_mem _).mp hmem)

/-- Witness for C9: with the identity long-path normalization, the
valid path `"ab"` is encoded successfully, and a path containing the
null character is rejected exactly by the null-byte criterion. -/
theorem pathBuffer_null_terminated_spec_witness :
    pathBuffer id [97, 98] = .ok [97, 98, 0] ∧
    (pathBuffer id [97, 0] = .error .bufferNullByte ↔
      0 ∈ utf8Encode [97, 0]) :=
  ⟨(pathBuffer_null_terminated_spec id [97, 98]).2.2.2.2
      (fun _ h => h) rfl,
   (pathBuffer_null_terminated_spec id [97, 0]).2.2.1⟩

end Utimes
